import Mathlib

/-!
Verification of the grocery price tracker (src/app.py) against its
natural-language specification.

The core data model and operations of the program are embedded shallowly:
Python floats are modelled as rationals, the Python dict built by
read_prices_from_sheet as an insertion-ordered association list, and
fallible Python code (indexing, division by zero) via the Option monad.
-/

/-- Splitting a character list on a single-character separator, the way
Python str.split does: "a|b" gives ["a","b"], "" gives [""], a trailing
separator yields a trailing empty field. -/
def splitChar (sep : Char) : List Char → List (List Char)
  | [] => [[]]
  | c :: cs =>
    if c = sep then [] :: splitChar sep cs
    else match splitChar sep cs with
      | [] => [[c]]
      | g :: gs => (c :: g) :: gs

/-- Python str.split with a one-character separator. -/
def pySplit (s : String) (sep : Char) : List String :=
  (splitChar sep s.data).map List.asString

/-- Drops leading whitespace characters. -/
def dropLeadingWs : List Char → List Char
  | [] => []
  | c :: cs => if c.isWhitespace then dropLeadingWs cs else c :: cs

/-- Python str.strip(): removes leading and trailing whitespace. -/
def pyStrip (s : String) : String :=
  (dropLeadingWs (dropLeadingWs s.data.reverse).reverse).asString

/-- Embeds the dataclass GroceryPrice (app.py lines 35-47).  Numeric fields
are rationals (Python floats) and an integer for the denominator. -/
structure GroceryPrice where
  name : String
  tags : List String
  size : ℚ
  denominator : ℤ
  unit : String
  branch : String
  price : ℚ
  unit_price : ℚ
deriving DecidableEq, Repr

/-- Embeds GroceryPrice construction including post-init (app.py lines
46-47): unit_price is set to price * denominator / size.  Python raises
ZeroDivisionError exactly when size = 0, modelled as none; no other
validation of size is performed by the source. -/
def mkGroceryPrice (name : String) (tags : List String) (size : ℚ)
    (denominator : ℤ) (unit : String) (branch : String) (price : ℚ) :
    Option GroceryPrice :=
  if size = 0 then none
  else some
    { name := name, tags := tags, size := size, denominator := denominator,
      unit := unit, branch := branch, price := price,
      unit_price := price * (denominator : ℚ) / size }

/-- The normalization expression of app.py line 47, under the name the
specification gives it (namespaced because Mathlib already has a
normalize). -/
def App.normalize (size : ℚ) (denominator : ℤ) (price : ℚ) : ℚ :=
  price * (denominator : ℚ) / size

/-- The loop of the list comprehension in get_cheapest_item_from_sorted
(app.py line 114): each iterated element re-evaluates sorted_list[0]
(fallible in Python, hence Option); on an empty list the index access is
never evaluated. -/
def cheapestLoop (sorted_list : List GroceryPrice) :
    List GroceryPrice → List GroceryPrice → Option (List GroceryPrice)
  | [], acc => some acc
  | i :: rest, acc => do
      let h ← sorted_list[0]?
      cheapestLoop sorted_list rest
        (if i.unit_price = h.unit_price then acc ++ [i] else acc)

/-- Embeds get_cheapest_item_from_sorted (app.py lines 113-114). -/
def get_cheapest_item_from_sorted (sorted_list : List GroceryPrice) :
    Option (List GroceryPrice) :=
  cheapestLoop sorted_list sorted_list []

/-- Embeds the ranking step of app (app.py lines 200-201): cheapest_items
from get_cheapest_item_from_sorted, other_items as the slice
filtered_items[len(cheapest_items):]. -/
def rank (filtered_items : List GroceryPrice) :
    Option (List GroceryPrice × List GroceryPrice) := do
  let cheapest_items ← get_cheapest_item_from_sorted filtered_items
  pure (cheapest_items, filtered_items.drop cheapest_items.length)

/-- One data row of the sheet as read_prices_from_sheet consumes it
(app.py lines 61-78): row[0] item name, row[1] pipe-delimited options,
row[2] size (already as a number: float parsing is assumed to succeed),
row[3] denominator, row[4] unit, and row[5+i] the branch price cells,
where a blank cell "" is modelled as none and a numeric cell as some
price. -/
structure RawRow where
  item : String
  options : String
  size : ℚ
  denominator : ℤ
  unit : String
  cells : List (Option ℚ)
deriving DecidableEq, Repr

/-- The Python dict built by read_prices_from_sheet, as an
insertion-ordered association list from item name to its records. -/
abbrev Catalog := List (String × List GroceryPrice)

/-- The inner cell loop of read_prices_from_sheet (app.py lines 66-78):
for each non-blank price cell at offset i, look up the branch name
header[5+i] (fallible) and construct a GroceryPrice (fallible when
size = 0). -/
def rowLoop (header : List String) (row : RawRow) :
    Nat → List (Option ℚ) → List GroceryPrice → Option (List GroceryPrice)
  | _, [], acc => some acc
  | i, cell :: rest, acc =>
    match cell with
    | none => rowLoop header row (i + 1) rest acc
    | some price => do
        let branch ← header[5 + i]?
        let g ← mkGroceryPrice row.item (pySplit row.options '|') row.size
          row.denominator row.unit branch price
        rowLoop header row (i + 1) rest (acc ++ [g])

/-- All records produced from one data row. -/
def rowRecords (header : List String) (row : RawRow) :
    Option (List GroceryPrice) :=
  rowLoop header row 0 row.cells []

/-- The membership test `grocery_item not in prices` (app.py line 64). -/
def containsKey (d : Catalog) (k : String) : Bool :=
  (d.lookup k).isSome

/-- Appending records to the dict entry of key k
(prices[grocery_item].append, app.py line 68). -/
def appendRecords (d : Catalog) (k : String) (recs : List GroceryPrice) :
    Catalog :=
  d.map (fun p => if p.1 = k then (p.1, p.2 ++ recs) else p)

/-- Processing of one data row (app.py lines 62-78): create an empty
entry if the item is new, then append the records of the row's non-blank
cells. -/
def processRow (header : List String) (d : Catalog) (row : RawRow) :
    Option Catalog := do
  let d1 := if containsKey d row.item then d else d ++ [(row.item, [])]
  let recs ← rowRecords header row
  pure (appendRecords d1 row.item recs)

/-- The row loop of read_prices_from_sheet (app.py lines 61-79). -/
def readLoop (header : List String) : Catalog → List RawRow → Option Catalog
  | d, [] => some d
  | d, row :: rest => do
      let d1 ← processRow header d row
      readLoop header d1 rest

/-- Embeds read_prices_from_sheet (app.py lines 56-79): header is the
sheet's first row, rows the data rows; any exception while building a
record (blank-size division, missing header column) aborts the whole
load. -/
def read_prices_from_sheet (header : List String) (rows : List RawRow) :
    Option Catalog :=
  readLoop header [] rows

/-- The item listing list(prices.keys()) (app.py line 144). -/
def grocery_items (d : Catalog) : List String :=
  d.map Prod.fst

/-- The tag test of app.py line 197:
len(np.intersect1d(item.tags, selected_tags)) == len(selected_tags).
np.intersect1d returns the distinct common values of the two lists, so
its length is the cardinality of the intersection of the two tag sets. -/
def tag_match (itemTags selected_tags : List String) : Bool :=
  (itemTags.toFinset ∩ selected_tags.toFinset).card == selected_tags.length

/-- Embeds the filtering loop of app (app.py lines 189-198): restrict to
the selected item when one is chosen, pass everything through when no
tags are selected, otherwise keep the records matching all selected
tags. -/
def filter_items (prices : Catalog) (selected_item : String)
    (selected_tags : List String) : List GroceryPrice :=
  prices.foldl
    (fun acc kv =>
      if selected_item ≠ "" ∧ kv.1 ≠ selected_item then acc
      else if selected_tags = [] then acc ++ kv.2
      else acc ++ kv.2.filter (fun item => tag_match item.tags selected_tags))
    []

/-- The worksheet DataFrame of app.py lines 238-239: column names plus
data rows; cell contents are abstracted as strings (the claims below
depend only on the shape of the frame, not on cell values). -/
structure DataFrame where
  columns : List String
  rows : List (List String)
deriving DecidableEq, Repr

/-- Outcome of one submitted mutation form: the in-memory frame after the
handler, the sequence of store writes issued (each a full-frame
set_with_dataframe call) and the error messages shown. -/
structure FormResult where
  df : DataFrame
  writes : List DataFrame
  errors : List String
deriving DecidableEq, Repr

/-- Embeds the add-item form handler (app.py lines 249-264): blank name
or blank unit shows an error, otherwise a new row is appended; in every
case set_with_dataframe is then called once (the call at line 262 is
outside the validation branches).  size and denominator arrive as the
cell text of the numeric inputs. -/
def add_item_submit (df : DataFrame) (name options size denominator unit :
    String) : FormResult :=
  if name = "" then
    { df := df, writes := [df], errors := ["Item name cannot be empty!"] }
  else if unit = "" then
    { df := df, writes := [df], errors := ["Unit cannot be empty!"] }
  else
    let new_row := [name, pyStrip options, size, denominator, unit]
      ++ List.replicate (df.columns.length - 5) ""
    let df2 : DataFrame := { df with rows := df.rows ++ [new_row] }
    { df := df2, writes := [df2], errors := [] }

/-- Embeds the add-branch form handler (app.py lines 270-280): blank name
or an existing column name shows an error, otherwise an empty column is
appended; in every case set_with_dataframe is then called once (the call
at line 278 is outside the validation branches). -/
def add_branch_submit (df : DataFrame) (name : String) : FormResult :=
  if name = "" then
    { df := df, writes := [df], errors := ["Branch name cannot be empty!"] }
  else
    let n := pyStrip name
    if n ∈ df.columns then
      { df := df, writes := [df], errors := [n ++ " already exists!"] }
    else
      let df2 : DataFrame :=
        { columns := df.columns ++ [n], rows := df.rows.map (fun r => r ++ [""]) }
      { df := df2, writes := [df2], errors := [] }

/-- The Milk example of the specification: header with branch columns
Tesco and Aldi. -/
def milkHeader : List String :=
  ["Grocery Item", "Options", "Size", "Denominator", "Unit", "Tesco", "Aldi"]

/-- Milk row priced at Tesco: 1.20 for 1000 ml per 1000 ml. -/
def milkRowTesco : RawRow :=
  { item := "Milk", options := "dairy", size := 1000, denominator := 1000,
    unit := "ml", cells := [some 1.20, none] }

/-- Milk row priced at Aldi: 0.50 for 500 ml per 1000 ml. -/
def milkRowAldi : RawRow :=
  { item := "Milk", options := "dairy", size := 500, denominator := 1000,
    unit := "ml", cells := [none, some 0.50] }

/-- The record the Tesco Milk row loads to (unit price 1.20). -/
def tescoMilk : GroceryPrice :=
  { name := "Milk", tags := ["dairy"], size := 1000, denominator := 1000,
    unit := "ml", branch := "Tesco", price := 1.20, unit_price := 1.20 }

/-- The record the Aldi Milk row loads to (unit price 1.00). -/
def aldiMilk : GroceryPrice :=
  { name := "Milk", tags := ["dairy"], size := 500, denominator := 1000,
    unit := "ml", branch := "Aldi", price := 0.50, unit_price := 1 }

/-- Sample record with unit price 1 at branch A. -/
def gpA : GroceryPrice :=
  { name := "X", tags := [], size := 1, denominator := 1, unit := "g",
    branch := "A", price := 1, unit_price := 1 }

/-- Sample record with unit price 2 at branch B. -/
def gpB : GroceryPrice :=
  { name := "X", tags := [], size := 1, denominator := 1, unit := "g",
    branch := "B", price := 2, unit_price := 2 }

/-- Sample record with unit price 1 at branch C. -/
def gpC : GroceryPrice :=
  { name := "X", tags := [], size := 1, denominator := 1, unit := "g",
    branch := "C", price := 1, unit_price := 1 }

/-- A worksheet frame that already has a Tesco branch column. -/
def dfTesco : DataFrame :=
  { columns := ["Grocery Item", "Options", "Size", "Denominator", "Unit",
      "Tesco"], rows := [] }

/-- A data row for Egg whose single branch price cell is blank. -/
def blankEgg : RawRow :=
  { item := "Egg", options := "", size := 1, denominator := 1,
    unit := "pc", cells := [none] }

theorem cheapestLoop_some (full : List GroceryPrice)
    (h : GroceryPrice) (hfull : full[0]? = some h) :
    ∀ (l : List GroceryPrice) (acc : List GroceryPrice),
      cheapestLoop full l acc
      = some (acc ++ l.filter (fun i => decide (i.unit_price = h.unit_price)))
  | [], acc => by simp [cheapestLoop]
  | a :: l, acc => by
    rw [cheapestLoop, hfull]
    simp only [Option.bind_eq_bind, Option.some_bind]
    rw [cheapestLoop_some full h hfull l, List.filter_cons]
    by_cases hc : a.unit_price = h.unit_price
    · simp [hc]
    · simp [hc]

theorem get_cheapest_cons (x : GroceryPrice) (xs : List GroceryPrice) :
    get_cheapest_item_from_sorted (x :: xs)
      = some ((x :: xs).filter (fun i => decide (i.unit_price = x.unit_price))) := by
  unfold get_cheapest_item_from_sorted
  rw [cheapestLoop_some (x :: xs) x (by simp) (x :: xs) []]
  simp

theorem get_cheapest_nil : get_cheapest_item_from_sorted [] = some [] := rfl

/-- C1: on the specification's own Milk example the code returns the
Tesco record (unit price 1.20, matching the FIRST element of the unsorted
input) as cheapest, not the Aldi record with the minimum unit price 1.00:
get_cheapest_item_from_sorted compares against sorted_list[0] but app()
passes the unsorted filtered_items. -/
theorem claim_C1_code_eval :
    read_prices_from_sheet milkHeader [milkRowTesco, milkRowAldi]
      = some [("Milk", [tescoMilk, aldiMilk])]
    ∧ tescoMilk.unit_price = 1.20 ∧ aldiMilk.unit_price = 1
    ∧ rank (filter_items [("Milk", [tescoMilk, aldiMilk])] "Milk" [])
      = some ([tescoMilk], [aldiMilk]) := by
  refine ⟨?_, by norm_num [tescoMilk], by norm_num [aldiMilk], ?_⟩
  · norm_num [read_prices_from_sheet, readLoop, processRow, rowRecords,
      rowLoop, mkGroceryPrice, containsKey, appendRecords, pySplit,
      splitChar, milkHeader, milkRowTesco, milkRowAldi, tescoMilk, aldiMilk,
      List.lookup, List.asString]
    decide
  · norm_num [rank, filter_items, get_cheapest_item_from_sorted,
      cheapestLoop, tescoMilk, aldiMilk]

/-- C2: on the unsorted input [A(1), B(2), C(1)] the code returns
cheapest = [A, C] and others = the suffix after index 2, namely [C]: the
record C appears in both outputs and B (unit price 2) is dropped, so
cheapest and others do not partition the input. -/
theorem claim_C2_code_eval :
    rank [gpA, gpB, gpC] = some ([gpA, gpC], [gpC])
    ∧ gpC ∈ [gpA, gpC] ∧ gpC ∈ ([gpC] : List GroceryPrice)
    ∧ gpB ∉ [gpA, gpC] ∧ gpB ∉ ([gpC] : List GroceryPrice) := by
  refine ⟨?_, by norm_num, by norm_num, ?_, ?_⟩
  · norm_num [rank, get_cheapest_item_from_sorted, cheapestLoop, gpA, gpB,
      gpC]
  · norm_num [gpA, gpB, gpC]
  · norm_num [gpB, gpC]

/-- C3: each rejected mutation (duplicate branch name, blank item name,
blank unit) still issues exactly one store write, because the
set_with_dataframe calls at app.py lines 262 and 278 are outside the
validation branches. -/
theorem claim_C3_code_eval :
    (add_branch_submit dfTesco "Tesco").writes = [dfTesco]
    ∧ (add_branch_submit dfTesco "Tesco").errors = ["Tesco already exists!"]
    ∧ (add_item_submit dfTesco "" "" "1" "1" "g").writes = [dfTesco]
    ∧ (add_item_submit dfTesco "" "" "1" "1" "g").errors
      = ["Item name cannot be empty!"]
    ∧ (add_item_submit dfTesco "Milk" "" "1" "1" "").writes = [dfTesco]
    ∧ (add_item_submit dfTesco "Milk" "" "1" "1" "").errors
      = ["Unit cannot be empty!"] := by
  decide

/-- C7: on the empty record list the ranking step returns two empty
sequences without failing: the comparison against sorted_list[0] is never
evaluated because the comprehension iterates no element. -/
theorem claim_C7_rank_empty : rank [] = some ([], []) := rfl

/-- C4: with a non-empty duplicate-free selection of required tags, the
tag test of app.py line 197 keeps a record exactly when every required
tag occurs among the record's tags (AND semantics): the distinct-value
intersection has the selection's cardinality iff the selection is a
subset of the record's tag set. -/
theorem claim_C4_tag_filter (itemTags required : List String)
    (_hne : required ≠ []) (hnd : required.Nodup) :
    tag_match itemTags required = true ↔ ∀ t ∈ required, t ∈ itemTags := by
  unfold tag_match
  rw [beq_iff_eq]
  constructor
  · intro h t ht
    have hcard : required.toFinset.card = required.length :=
      List.toFinset_card_of_nodup hnd
    have hsub : itemTags.toFinset ∩ required.toFinset ⊆ required.toFinset :=
      Finset.inter_subset_right
    have heq : itemTags.toFinset ∩ required.toFinset = required.toFinset :=
      Finset.eq_of_subset_of_card_le hsub (by rw [hcard]; exact le_of_eq h.symm)
    have hmem : t ∈ itemTags.toFinset ∩ required.toFinset := by
      rw [heq]
      exact List.mem_toFinset.mpr ht
    exact List.mem_toFinset.mp (Finset.mem_inter.mp hmem).1
  · intro h
    have heq : itemTags.toFinset ∩ required.toFinset = required.toFinset := by
      apply Finset.inter_eq_right.mpr
      intro t ht
      exact List.mem_toFinset.mpr (h t (List.mem_toFinset.mp ht))
    rw [heq, List.toFinset_card_of_nodup hnd]

/-- Witness for C4: a record tagged only A is not kept by the selection
A, B, while a record carrying both is. -/
theorem claim_C4_witness :
    tag_match ["A"] ["A", "B"] = false
    ∧ tag_match ["A", "B", "C"] ["A", "B"] = true := by
  constructor
  · have h := claim_C4_tag_filter ["A"] ["A", "B"] (by decide) (by decide)
    have hno : ¬ ∀ t ∈ (["A", "B"] : List String), t ∈ (["A"] : List String) := by
      decide
    cases hb : tag_match ["A"] ["A", "B"]
    · rfl
    · exact absurd (h.mp hb) hno
  · exact (claim_C4_tag_filter ["A", "B", "C"] ["A", "B"] (by decide)
      (by decide)).mpr (by decide)

/-- C5: on valid inputs (size > 0, denominator >= 1, price >= 0) the
normalization price * denominator / size is monotone in price, antitone
in size, and invariant under scaling size and price by the same positive
factor. -/
theorem claim_C5_normalize (s₁ s₂ : ℚ) (d : ℤ) (p₁ p₂ k : ℚ)
    (hs₁ : 0 < s₁) (hs₁₂ : s₁ ≤ s₂) (hd : 1 ≤ d) (hp₁ : 0 ≤ p₁)
    (hp₁₂ : p₁ ≤ p₂) (hk : 0 < k) :
    App.normalize s₁ d p₁ ≤ App.normalize s₁ d p₂
    ∧ App.normalize s₂ d p₁ ≤ App.normalize s₁ d p₁
    ∧ App.normalize (k * s₁) d (k * p₁) = App.normalize s₁ d p₁ := by
  have hd0 : (0 : ℚ) ≤ (d : ℚ) := by
    exact_mod_cast le_trans zero_le_one hd
  have hpd : 0 ≤ p₁ * (d : ℚ) := mul_nonneg hp₁ hd0
  refine ⟨?_, ?_, ?_⟩
  · unfold App.normalize
    gcongr
  · unfold App.normalize
    gcongr
  · unfold App.normalize
    have hnum : k * p₁ * (d : ℚ) = k * (p₁ * (d : ℚ)) := by ring
    rw [hnum, mul_div_mul_left _ _ hk.ne']

/-- Witness for C5 at size 1 and 4, denominator 2, prices 1 and 3,
scale factor 5. -/
theorem claim_C5_witness :
    App.normalize 1 2 1 ≤ App.normalize 1 2 3
    ∧ App.normalize 4 2 1 ≤ App.normalize 1 2 1
    ∧ App.normalize (5 * 1) 2 (5 * 1) = App.normalize 1 2 1 :=
  claim_C5_normalize 1 4 2 1 3 5 (by norm_num) (by norm_num) (by norm_num)
    (by norm_num) (by norm_num) (by norm_num)

/-- C6 counterexample: constructing a record with size -1 (denominator 1,
price 2) does not fail at all: it succeeds and silently yields the
negative unit price -2, contradicting the claim that size <= 0 is
rejected with an InvalidRecord error. -/
theorem claim_C6_counterexample :
    mkGroceryPrice "Milk" ["dairy"] (-1) 1 "g" "Tesco" 2
      = some { name := "Milk", tags := ["dairy"], size := -1,
               denominator := 1, unit := "g", branch := "Tesco", price := 2,
               unit_price := -2 } := by
  norm_num [mkGroceryPrice]

/-- C6 amended: construction fails only at size = 0 (Python's
ZeroDivisionError; there is no InvalidRecord validation anywhere), and
for size < 0 with denominator >= 1 and price > 0 it succeeds and
silently produces a negative unit price. -/
theorem claim_C6_amended_thm (n : String) (t : List String) (s : ℚ)
    (d : ℤ) (u b : String) (p : ℚ) (hs : s < 0) (hd : 1 ≤ d) (hp : 0 < p) :
    (∀ s₂ : ℚ, mkGroceryPrice n t s₂ d u b p = none ↔ s₂ = 0)
    ∧ ∃ g, mkGroceryPrice n t s d u b p = some g ∧ g.unit_price < 0 := by
  have hd0 : (0 : ℚ) < (d : ℚ) := by
    exact_mod_cast lt_of_lt_of_le zero_lt_one hd
  constructor
  · intro s₂
    by_cases h : s₂ = 0 <;> simp [mkGroceryPrice, h]
  · refine ⟨{ name := n, tags := t, size := s, denominator := d, unit := u,
               branch := b, price := p, unit_price := p * (d : ℚ) / s },
      ?_, ?_⟩
    · simp [mkGroceryPrice, hs.ne]
    · exact div_neg_of_pos_of_neg (mul_pos hp hd0) hs

/-- Witness for the amended C6 at size -1, denominator 1, price 2. -/
theorem claim_C6_witness :
    (∀ s₂ : ℚ, mkGroceryPrice "Milk" ["dairy"] s₂ 1 "g" "Tesco" 2 = none
      ↔ s₂ = 0)
    ∧ ∃ g, mkGroceryPrice "Milk" ["dairy"] (-1) 1 "g" "Tesco" 2 = some g
      ∧ g.unit_price < 0 :=
  claim_C6_amended_thm "Milk" ["dairy"] (-1) 1 "g" "Tesco" 2 (by norm_num)
    (by norm_num) (by norm_num)

/-- C8: the ranking step is idempotent on its cheapest output: whenever
rank l succeeds with (c, o), ranking c again returns all of c as
cheapest and an empty others. -/
theorem claim_C8_idempotent (l c o : List GroceryPrice)
    (h : rank l = some (c, o)) : rank c = some (c, []) := by
  cases l with
  | nil =>
    unfold rank get_cheapest_item_from_sorted cheapestLoop at h
    simp at h
    obtain ⟨h1, h2⟩ := h
    subst h1
    rfl
  | cons x xs =>
    unfold rank at h
    rw [get_cheapest_cons] at h
    simp only [Option.bind_eq_bind, Option.some_bind] at h
    have hco := Option.some_inj.mp h
    have hc : (x :: xs).filter (fun i => decide (i.unit_price = x.unit_price)) = c :=
      congrArg Prod.fst hco
    subst hc
    have hfc : (x :: xs).filter (fun i => decide (i.unit_price = x.unit_price))
        = x :: xs.filter (fun i => decide (i.unit_price = x.unit_price)) := by
      simp [List.filter_cons]
    rw [hfc]
    unfold rank
    rw [get_cheapest_cons]
    have hself :
        (x :: xs.filter (fun i => decide (i.unit_price = x.unit_price))).filter
            (fun i => decide (i.unit_price = x.unit_price))
          = x :: xs.filter (fun i => decide (i.unit_price = x.unit_price)) := by
      apply List.filter_eq_self.mpr
      intro a ha
      rcases List.mem_cons.mp ha with h1 | h2
      · subst h1
        simp
      · exact (List.mem_filter.mp h2).2
    rw [hself]
    simp [List.drop_length]

/-- C9: every record that construction returns carries
unit_price = price * denominator / size, computed from the other fields
passed to the constructor (the source never reassigns unit_price after
post-init). -/
theorem claim_C9_unit_price (n : String) (t : List String) (s : ℚ) (d : ℤ)
    (u b : String) (p : ℚ) (g : GroceryPrice)
    (h : mkGroceryPrice n t s d u b p = some g) :
    g.unit_price = g.price * (g.denominator : ℚ) / g.size
    ∧ g.price = p ∧ g.size = s ∧ g.denominator = d := by
  unfold mkGroceryPrice at h
  by_cases hs : s = 0
  · simp [hs] at h
  · simp [hs] at h
    subst h
    simp

/-- Witness for C9: the branch-A sample record. -/
theorem claim_C9_witness :
    gpA.unit_price = gpA.price * (gpA.denominator : ℚ) / gpA.size
    ∧ gpA.price = 1 ∧ gpA.size = 1 ∧ gpA.denominator = 1 :=
  claim_C9_unit_price "X" [] 1 1 "g" "A" 1 gpA
    (by norm_num [mkGroceryPrice, gpA])

/-- Witness for C8: ranking [A(1), B(2)] gives cheapest [A]; re-ranking
[A] returns it entirely as cheapest with empty others. -/
theorem claim_C8_witness : rank [gpA] = some ([gpA], []) :=
  claim_C8_idempotent [gpA, gpB] [gpA] [gpB]
    (by norm_num [rank, get_cheapest_item_from_sorted, cheapestLoop, gpA,
      gpB])

theorem lookup_cons_ne (a k : String) (b : List GroceryPrice)
    (rest : Catalog) (h : k ≠ a) :
    ((a, b) :: rest).lookup k = rest.lookup k := by
  have hb : (k == a) = false := beq_eq_false_iff_ne.mpr h
  simp [List.lookup, hb]

theorem lookup_append_of_none (d e : Catalog) (k : String)
    (h : d.lookup k = none) : (d ++ e).lookup k = e.lookup k := by
  induction d with
  | nil => simp
  | cons p rest ih =>
    obtain ⟨a, b⟩ := p
    by_cases hk : k = a
    · subst hk
      simp [List.lookup] at h
    · rw [List.cons_append, lookup_cons_ne a k b (rest ++ e) hk]
      rw [lookup_cons_ne a k b rest hk] at h
      exact ih h

theorem lookup_append_of_some (d e : Catalog) (k : String)
    (v : List GroceryPrice) (h : d.lookup k = some v) :
    (d ++ e).lookup k = some v := by
  induction d with
  | nil => simp [List.lookup] at h
  | cons p rest ih =>
    obtain ⟨a, b⟩ := p
    by_cases hk : k = a
    · subst hk
      simp [List.lookup] at h ⊢
      exact h
    · rw [List.cons_append, lookup_cons_ne a k b (rest ++ e) hk]
      rw [lookup_cons_ne a k b rest hk] at h
      exact ih h

theorem appendRecords_nil (d : Catalog) (k : String) :
    appendRecords d k [] = d := by
  unfold appendRecords
  have hfun : (fun p : String × List GroceryPrice =>
      if p.1 = k then (p.1, p.2 ++ []) else p) = fun p => p := by
    funext p
    obtain ⟨x, y⟩ := p
    by_cases hp : x = k <;> simp [hp]
  rw [hfun]
  exact List.map_id' d

theorem appendRecords_cons (a : String) (b recs : List GroceryPrice)
    (rest : Catalog) (k : String) :
    appendRecords ((a, b) :: rest) k recs
      = (if a = k then (a, b ++ recs) else (a, b)) :: appendRecords rest k recs :=
  rfl

theorem appendRecords_lookup_ne (d : Catalog) (k k2 : String)
    (recs : List GroceryPrice) (h : k2 ≠ k) :
    (appendRecords d k recs).lookup k2 = d.lookup k2 := by
  induction d with
  | nil => rfl
  | cons p rest ih =>
    obtain ⟨a, b⟩ := p
    rw [appendRecords_cons]
    by_cases hak : a = k
    · rw [if_pos hak]
      have h2 : k2 ≠ a := by
        rw [hak]
        exact h
      rw [lookup_cons_ne a k2 (b ++ recs) _ h2, lookup_cons_ne a k2 b rest h2]
      exact ih
    · rw [if_neg hak]
      by_cases hk2 : k2 = a
      · subst hk2
        simp [List.lookup]
      · rw [lookup_cons_ne a k2 b _ hk2, lookup_cons_ne a k2 b rest hk2]
        exact ih

theorem appendRecords_lookup_self (d : Catalog) (k : String)
    (recs : List GroceryPrice) :
    (appendRecords d k recs).lookup k
      = (d.lookup k).map (fun l => l ++ recs) := by
  induction d with
  | nil => rfl
  | cons p rest ih =>
    obtain ⟨a, b⟩ := p
    rw [appendRecords_cons]
    by_cases hak : a = k
    · rw [if_pos hak]
      subst hak
      simp [List.lookup]
    · rw [if_neg hak]
      have hka : k ≠ a := fun hh => hak hh.symm
      rw [lookup_cons_ne a k b (appendRecords rest k recs) hka,
        lookup_cons_ne a k b rest hka]
      exact ih

theorem rowLoop_blank (header : List String) (row : RawRow) :
    ∀ (cells : List (Option ℚ)) (i : Nat) (acc : List GroceryPrice),
      cells.all Option.isNone → rowLoop header row i cells acc = some acc
  | [], _, _, _ => rfl
  | c :: rest, i, acc, h => by
    have h1 : c.isNone ∧ rest.all Option.isNone := by
      simpa [List.all_cons] using h
    have hc : c = none := Option.isNone_iff_eq_none.mp h1.1
    subst hc
    simp only [rowLoop]
    exact rowLoop_blank header row rest (i + 1) acc h1.2

theorem processRow_blank (header : List String) (d : Catalog) (row : RawRow)
    (h : row.cells.all Option.isNone) :
    processRow header d row
      = some (if containsKey d row.item then d else d ++ [(row.item, [])]) := by
  unfold processRow rowRecords
  rw [rowLoop_blank header row row.cells 0 [] h]
  simp [appendRecords_nil]

theorem processRow_lookup_other (header : List String) (d d' : Catalog)
    (row : RawRow) (k : String) (hne : k ≠ row.item)
    (h : processRow header d row = some d') :
    d'.lookup k = d.lookup k := by
  unfold processRow at h
  cases hr : rowRecords header row with
  | none =>
    rw [hr] at h
    simp at h
  | some recs =>
    rw [hr] at h
    simp only [Option.pure_def, Option.bind_eq_bind, Option.some_bind,
      Option.some_inj] at h
    rw [← h, appendRecords_lookup_ne _ _ _ _ hne]
    by_cases hc : containsKey d row.item
    · rw [if_pos hc]
    · rw [if_neg hc]
      cases hdk : d.lookup k with
      | some v => rw [lookup_append_of_some d _ k v hdk]
      | none =>
        rw [lookup_append_of_none d _ k hdk,
          lookup_cons_ne row.item k [] [] hne]
        rfl

theorem processRow_lookup_self (header : List String) (d d' : Catalog)
    (row : RawRow) (h : processRow header d row = some d') :
    (d'.lookup row.item).isSome := by
  unfold processRow at h
  cases hr : rowRecords header row with
  | none =>
    rw [hr] at h
    simp at h
  | some recs =>
    rw [hr] at h
    simp only [Option.pure_def, Option.bind_eq_bind, Option.some_bind,
      Option.some_inj] at h
    rw [← h, appendRecords_lookup_self]
    by_cases hc : containsKey d row.item
    · rw [if_pos hc]
      unfold containsKey at hc
      cases hdk : d.lookup row.item with
      | none =>
        rw [hdk] at hc
        simp at hc
      | some v => simp [hdk]
    · rw [if_neg hc]
      unfold containsKey at hc
      have hdk : d.lookup row.item = none := by
        cases hdk : d.lookup row.item with
        | none => rfl
        | some v =>
          rw [hdk] at hc
          simp at hc
      rw [lookup_append_of_none d _ _ hdk]
      simp [List.lookup]

theorem processRow_blank_self (header : List String) (d d' : Catalog)
    (row : RawRow) (hblank : row.cells.all Option.isNone)
    (h : processRow header d row = some d')
    (hinv : d.lookup row.item = none ∨ d.lookup row.item = some []) :
    d'.lookup row.item = some [] := by
  rw [processRow_blank header d row hblank] at h
  have hd' := Option.some_inj.mp h
  rw [← hd']
  by_cases hc : containsKey d row.item
  · rw [if_pos hc]
    rcases hinv with h1 | h1
    · unfold containsKey at hc
      rw [h1] at hc
      simp at hc
    · exact h1
  · rw [if_neg hc]
    have hnone : d.lookup row.item = none := by
      rcases hinv with h1 | h1
      · exact h1
      · unfold containsKey at hc
        rw [h1] at hc
        simp at hc
    rw [lookup_append_of_none d _ _ hnone]
    simp [List.lookup]

theorem readLoop_preserve (header : List String) :
    ∀ (rows : List RawRow) (d0 d : Catalog),
      readLoop header d0 rows = some d →
      ∀ k : String, (d0.lookup k).isSome → (d.lookup k).isSome
  | [], d0, d, h, k, hk => by
    simp only [readLoop, Option.some_inj] at h
    rw [← h]
    exact hk
  | row :: rest, d0, d, h, k, hk => by
    rw [readLoop] at h
    cases hp : processRow header d0 row with
    | none =>
      rw [hp] at h
      simp at h
    | some d1 =>
      rw [hp] at h
      simp only [Option.bind_eq_bind, Option.some_bind] at h
      have hk1 : (d1.lookup k).isSome := by
        by_cases hkr : k = row.item
        · subst hkr
          exact processRow_lookup_self header d0 d1 row hp
        · rw [processRow_lookup_other header d0 d1 row k hkr hp]
          exact hk
      exact readLoop_preserve header rest d1 d h k hk1

theorem readLoop_creates (header : List String) :
    ∀ (rows : List RawRow) (d0 d : Catalog),
      readLoop header d0 rows = some d →
      ∀ row ∈ rows, (d.lookup row.item).isSome
  | [], _, _, _, row, hmem => absurd hmem (List.not_mem_nil row)
  | r :: rest, d0, d, h, row, hmem => by
    rw [readLoop] at h
    cases hp : processRow header d0 r with
    | none =>
      rw [hp] at h
      simp at h
    | some d1 =>
      rw [hp] at h
      simp only [Option.bind_eq_bind, Option.some_bind] at h
      rcases List.mem_cons.mp hmem with h1 | h2
      · subst h1
        exact readLoop_preserve header rest d1 d h row.item
          (processRow_lookup_self header d0 d1 row hp)
      · exact readLoop_creates header rest d1 d h row h2

theorem readLoop_blank_inv (header : List String) (n : String) :
    ∀ (rows : List RawRow) (d0 d : Catalog),
      (∀ r ∈ rows, r.item = n → r.cells.all Option.isNone) →
      readLoop header d0 rows = some d →
      (d0.lookup n = none ∨ d0.lookup n = some []) →
      (d.lookup n = none ∨ d.lookup n = some [])
  | [], d0, d, _, h, hinv => by
    simp only [readLoop, Option.some_inj] at h
    rw [← h]
    exact hinv
  | row :: rest, d0, d, hall, h, hinv => by
    rw [readLoop] at h
    cases hp : processRow header d0 row with
    | none =>
      rw [hp] at h
      simp at h
    | some d1 =>
      rw [hp] at h
      simp only [Option.bind_eq_bind, Option.some_bind] at h
      have hinv1 : d1.lookup n = none ∨ d1.lookup n = some [] := by
        by_cases hn : row.item = n
        · have hblank := hall row (List.mem_cons_self row rest) hn
          subst hn
          exact Or.inr (processRow_blank_self header d0 d1 row hblank hp hinv)
        · have hn2 : n ≠ row.item := fun hh => hn hh.symm
          rw [processRow_lookup_other header d0 d1 row n hn2 hp]
          exact hinv
      exact readLoop_blank_inv header n rest d1 d
        (fun r hr => hall r (List.mem_cons_of_mem row hr)) h hinv1

theorem mem_keys_of_lookup (d : Catalog) (k : String)
    (v : List GroceryPrice) (h : d.lookup k = some v) :
    k ∈ grocery_items d := by
  induction d with
  | nil => simp [List.lookup] at h
  | cons p rest ih =>
    obtain ⟨a, b⟩ := p
    by_cases hk : k = a
    · subst hk
      simp [grocery_items]
    · rw [lookup_cons_ne a k b rest hk] at h
      have hmem := ih h
      simp [grocery_items] at hmem ⊢
      exact Or.inr hmem

/-- C10: a data row all of whose branch price cells are blank still
creates a catalog entry for its item name: if every row bearing that item
name is all-blank, the loaded catalog maps the name to the empty record
sequence, and the name still appears in the item listing
list(prices.keys()). -/
theorem claim_C10_blank_row (header : List String) (rows : List RawRow)
    (d : Catalog) (row : RawRow) (hrow : row ∈ rows)
    (hall : ∀ r ∈ rows, r.item = row.item → r.cells.all Option.isNone)
    (hload : read_prices_from_sheet header rows = some d) :
    d.lookup row.item = some [] ∧ row.item ∈ grocery_items d := by
  unfold read_prices_from_sheet at hload
  have hsome : (d.lookup row.item).isSome :=
    readLoop_creates header rows [] d hload row hrow
  have hinv : d.lookup row.item = none ∨ d.lookup row.item = some [] :=
    readLoop_blank_inv header row.item rows [] d hall hload (Or.inl rfl)
  have heq : d.lookup row.item = some [] := by
    rcases hinv with h1 | h1
    · rw [h1] at hsome
      simp at hsome
    · exact h1
  exact ⟨heq, mem_keys_of_lookup d row.item [] heq⟩

/-- Witness for C10: loading the single all-blank Egg row yields the
catalog [("Egg", [])], whose entry is the empty record list and whose
item listing contains Egg. -/
theorem claim_C10_witness :
    List.lookup blankEgg.item [("Egg", ([] : List GroceryPrice))] = some []
    ∧ blankEgg.item ∈ grocery_items [("Egg", ([] : List GroceryPrice))] :=
  claim_C10_blank_row milkHeader [blankEgg] [("Egg", [])] blankEgg
    (List.mem_singleton.mpr rfl)
    (by
      intro r hr _
      rw [List.mem_singleton.mp hr]
      rfl)
    (by rfl)
